import Mathlib

/-!
# Marshalling helpers of `ai/src/main/cpp/Native.h`

A shallow embedding of the JNI helper functions of `Native.h`
(string and array bridging, bitmap to matrix conversion) together with the
properties of them that can be stated and checked over that embedding.

Conventions of the embedding:

* machine integers are `Int`/`Nat`; a conversion between integer types that
  the C++ performs implicitly is an explicit function (`toJsize`, `toSizeT`);
* array and buffer elements are bit patterns (`Nat`), no arithmetic is ever
  done on them by the code;
* a raw pointer is the function giving the element found at each offset;
* a managed array is the list of its elements, a managed string the list of
  its code points, and a local handle is identified with the object it names;
* every call through `JNIEnv *` is recorded, in order, in the environment.
-/

namespace Native

/-! ## Machine integers -/

/-- Conversion of an integer to `jsize` (`jint`, a signed 32 bit integer):
    the value modulo `2^32`, read as two's complement. -/
def toJsize (n : Int) : Int :=
  let r := (n % 4294967296).toNat
  if r < 2147483648 then (r : Int) else (r : Int) - 4294967296

/-- Conversion of an integer to `size_t` (64 bit unsigned). -/
def toSizeT (n : Int) : Nat :=
  (n % 18446744073709551616).toNat

/-- Elements of `jfloatArray` / `float` buffers, as IEEE bit patterns. -/
abbrev jfloat := Nat
/-- Elements of `jintArray` / `int` buffers. -/
abbrev jint := Nat
/-- Elements of `jbyteArray` / `int8_t` or `char` buffers. -/
abbrev jbyte := Nat
/-- The type `int64_t`. -/
abbrev int64_t := Nat
/-- In `jni.h`, `jlong` is a typedef of `int64_t`. -/
abbrev jlong := int64_t

/-- A native pointer to elements: the element stored at each offset. -/
abbrev Ptr (α : Type) := Nat → α

/-- Pointer to the first element of a native sequence (`vec.data()`, or the
    buffer a managed array is pinned to). Offsets past the end read `0`. -/
def ptrOf (xs : List Nat) : Ptr Nat := fun i => xs.getD i 0

/-- The `n` elements found from a pointer on: what `std::string(p, n)` and
    `std::vector<T>(p, p + n)` copy. -/
def readN {α : Type} (p : Ptr α) (n : Nat) : List α :=
  (List.range n).map p

/-! ## The JNI environment -/

/-- The functions of `JNIEnv` that `Native.h` calls. -/
inductive JniCall
  | GetObjectClass | GetMethodID | NewStringUTF | CallObjectMethod
  | GetArrayLength | GetByteArrayElements | ReleaseByteArrayElements
  | DeleteLocalRef | FindClass | NewObject (bytes : List Nat)
  | NewByteArray | SetByteArrayRegion
  | NewFloatArray | SetFloatArrayRegion
  | NewIntArray | SetIntArrayRegion
  | NewLongArray | SetLongArrayRegion
  | GetLongArrayElements | ReleaseLongArrayElements
  | GetFloatArrayElements | ReleaseFloatArrayElements
deriving DecidableEq, Repr

/-- The part of the runtime's state the helpers can change that is observed
    here: the calls made into it so far, oldest first. -/
structure JNIEnv where
  calls : List JniCall
deriving DecidableEq, Repr

/-- A native computation run against the environment: its result, `none`
    when the runtime refuses a call (the C++ never checks for that, and what
    follows is a crash or undefined), and the environment it leaves. -/
def JNI (α : Type) : Type := JNIEnv → Option α × JNIEnv

namespace JNI

/-- Return a value without touching the environment. -/
def ret {α : Type} (a : α) : JNI α := fun env => (some a, env)

/-- Sequencing: the second computation runs only when the first has a result. -/
def andThen {α β : Type} (m : JNI α) (f : α → JNI β) : JNI β := fun env =>
  match m env with
  | (some a, env1) => f a env1
  | (none, env1) => (none, env1)

/-- The runtime refuses the call. -/
def fail {α : Type} : JNI α := fun env => (none, env)

/-- Record a call. -/
def call (c : JniCall) : JNI Unit := fun env =>
  (some (), { calls := env.calls ++ [c] })

end JNI

instance : Monad JNI where
  pure := JNI.ret
  bind := JNI.andThen

/-- The function `New<Type>Array(length)`: a fresh managed array of `length` zeros; the
    runtime refuses a negative length. -/
def newArray (c : JniCall) (length : Int) : JNI (List Nat) := do
  JNI.call c
  if length < 0 then JNI.fail else pure (List.replicate length.toNat 0)

/-- The function `Set<Type>ArrayRegion(array, start, len, buf)`: elements
    `start .. start+len-1` of the array are overwritten with `buf[0 .. len-1]`;
    the runtime refuses a region that is not inside the array. -/
def setArrayRegion (c : JniCall) (array : List Nat) (start len : Int)
    (buf : Ptr Nat) : JNI (List Nat) := do
  JNI.call c
  if start < 0 ∨ len < 0 ∨ (array.length : Int) < start + len then JNI.fail
  else pure (array.take start.toNat ++ readN buf len.toNat
              ++ array.drop (start.toNat + len.toNat))

/-- The function `GetArrayLength(array)`. A managed array has fewer than `2^31` elements,
    so the `jsize` returned is its length. -/
def GetArrayLength (array : List Nat) : JNI Int := do
  JNI.call .GetArrayLength
  pure (array.length : Int)

/-- The function `Get<Type>ArrayElements(array, NULL)`: a pointer to the elements. -/
def getArrayElements (c : JniCall) (array : List Nat) : JNI (Ptr Nat) := do
  JNI.call c
  pure (ptrOf array)

/-- The function `Release<Type>ArrayElements(array, elems, mode)`. -/
def releaseArrayElements (c : JniCall) : JNI Unit :=
  JNI.call c

/-- The function `DeleteLocalRef(handle)`. -/
def DeleteLocalRef : JNI Unit :=
  JNI.call .DeleteLocalRef

/-! ## Array conversion (`Native.h` lines 57-106) -/

/-- The function `cpp_array_to_jfloatarray(env, buf, len)`; `len` is an `int64_t`, the two
    JNI functions take a `jsize`. -/
def cpp_array_to_jfloatarray (buf : Ptr jfloat) (len : Int) : JNI (List jfloat) := do
  let result ← newArray .NewFloatArray (toJsize len)
  let result ← setArrayRegion .SetFloatArrayRegion result 0 (toJsize len) buf
  pure result

/-- The function `cpp_array_to_jintarray(env, buf, len)`. -/
def cpp_array_to_jintarray (buf : Ptr jint) (len : Int) : JNI (List jint) := do
  let result ← newArray .NewIntArray (toJsize len)
  let result ← setArrayRegion .SetIntArrayRegion result 0 (toJsize len) buf
  pure result

/-- The function `cpp_array_to_jbytearray(env, buf, len)`. -/
def cpp_array_to_jbytearray (buf : Ptr jbyte) (len : Int) : JNI (List jbyte) := do
  let result ← newArray .NewByteArray (toJsize len)
  let result ← setArrayRegion .SetByteArrayRegion result 0 (toJsize len) buf
  pure result

/-- The cast `(jlong) vec[i]`: both types are `int64_t`. -/
def castToJlong (x : int64_t) : jlong := x

/-- The loop `for (size_t i = 0; i < vec.size(); ++i) buf[i] = (jlong) vec[i];`
    with `todo` iterations left, the counter at `i`. -/
def fillLoop (vec : List int64_t) : Nat → Nat → List jlong → List jlong
  | 0, _, buf => buf
  | todo + 1, i, buf => fillLoop vec todo (i + 1) (buf.set i (castToJlong (vec.getD i 0)))

/-- The function `int64_vector_to_jlongarray(env, vec)`. `uninit` is what the storage
    obtained from `new jlong[vec.size()]` holds before the loop writes it. -/
def int64_vector_to_jlongarray (uninit : Ptr jlong) (vec : List int64_t) :
    JNI (List jlong) := do
  let result ← newArray .NewLongArray (toJsize vec.length)
  let buf := fillLoop vec vec.length 0 (readN uninit vec.length)
  let result ← setArrayRegion .SetLongArrayRegion result 0 (toJsize vec.length) (ptrOf buf)
  pure result

/-- The function `jlongarray_to_int64_vector(env, data)`. -/
def jlongarray_to_int64_vector (data : List jlong) : JNI (List int64_t) := do
  let data_size ← GetArrayLength data
  let data_ptr ← getArrayElements .GetLongArrayElements data
  let data_vec := readN data_ptr data_size.toNat
  releaseArrayElements .ReleaseLongArrayElements
  pure data_vec

/-- The function `jfloatarray_to_float_vector(env, data)`. -/
def jfloatarray_to_float_vector (data : List jfloat) : JNI (List jfloat) := do
  let data_size ← GetArrayLength data
  let data_ptr ← getArrayElements .GetFloatArrayElements data
  let data_vec := readN data_ptr data_size.toNat
  releaseArrayElements .ReleaseFloatArrayElements
  pure data_vec

/-! ## Managed strings and UTF-8 -/

/-- A managed string: its text, one Unicode scalar value per code point
    (the texts that both UTF-16 and UTF-8 can express). -/
abbrev jstring := List Char

/-- Standard UTF-8 encoding of one code point. -/
def utf8EncodeChar (c : Char) : List Nat :=
  let v := c.toNat
  if v < 128 then [v]
  else if v < 2048 then [192 + v / 64, 128 + v % 64]
  else if v < 65536 then [224 + v / 4096, 128 + v / 64 % 64, 128 + v % 64]
  else [240 + v / 262144, 128 + v / 4096 % 64, 128 + v / 64 % 64, 128 + v % 64]

/-- Standard UTF-8 encoding of a text. -/
def utf8Encode : List Char → List Nat
  | [] => []
  | c :: cs => utf8EncodeChar c ++ utf8Encode cs

/-- A UTF-8 continuation byte, `10xxxxxx`. -/
def isCont (b : Nat) : Bool := decide (128 ≤ b) && decide (b < 192)

/-- Decode the well-formed UTF-8 sequence at the head of the bytes: the code
    point and the bytes after it; `none` when the head is not well formed
    (stray continuation byte, truncated or overlong sequence, surrogate,
    value above U+10FFFF). -/
def utf8DecodeChar? : List Nat → Option (Char × List Nat)
  | [] => none
  | b0 :: bs =>
    if b0 < 128 then some (Char.ofNat b0, bs)
    else if b0 < 194 then none
    else if b0 < 224 then
      match bs with
      | b1 :: r =>
        if isCont b1 then some (Char.ofNat ((b0 - 192) * 64 + (b1 - 128)), r) else none
      | _ => none
    else if b0 < 240 then
      match bs with
      | b1 :: b2 :: r =>
        let v := (b0 - 224) * 4096 + (b1 - 128) * 64 + (b2 - 128)
        if isCont b1 && isCont b2 && decide (2048 ≤ v) && !(decide (55296 ≤ v) && decide (v < 57344))
        then some (Char.ofNat v, r) else none
      | _ => none
    else if b0 < 245 then
      match bs with
      | b1 :: b2 :: b3 :: r =>
        let v := (b0 - 240) * 262144 + (b1 - 128) * 4096 + (b2 - 128) * 64 + (b3 - 128)
        if isCont b1 && isCont b2 && isCont b3 && decide (65536 ≤ v) && decide (v < 1114112)
        then some (Char.ofNat v, r) else none
      | _ => none
    else none

/-- UTF-8 decoding of at most `fuel` code points; a byte that starts no
    well-formed sequence decodes to U+FFFD and decoding resumes after it. -/
def utf8DecodeAux : Nat → List Nat → List Char
  | 0, _ => []
  | _ + 1, [] => []
  | fuel + 1, b :: bs =>
    match utf8DecodeChar? (b :: bs) with
    | some (c, rest) => c :: utf8DecodeAux fuel rest
    | none => Char.ofNat 65533 :: utf8DecodeAux fuel bs

/-- Standard UTF-8 decoding of a byte sequence (every step consumes a byte,
    so one unit of fuel per byte is enough). -/
def utf8Decode (bs : List Nat) : List Char := utf8DecodeAux bs.length bs

/-- A class handle, identified with the class name. -/
abbrev jclass := String

/-- The two methods of `java.lang.String` that `Native.h` looks up. -/
inductive jmethodID
  | String_getBytes
  | String_init
deriving DecidableEq, Repr

/-- The function `GetObjectClass(obj)` of a string object. -/
def GetObjectClass (_obj : jstring) : JNI jclass := do
  JNI.call .GetObjectClass
  pure "java/lang/String"

/-- The function `FindClass(name)`. -/
def FindClass (name : String) : JNI jclass := do
  JNI.call .FindClass
  if name = "java/lang/String" then pure name else JNI.fail

/-- The function `GetMethodID(clazz, name, sig)`. -/
def GetMethodID (clazz : jclass) (name sig : String) : JNI jmethodID := do
  JNI.call .GetMethodID
  if clazz = "java/lang/String" ∧ name = "getBytes" ∧ sig = "(Ljava/lang/String;)[B" then
    pure .String_getBytes
  else if clazz = "java/lang/String" ∧ name = "<init>" ∧ sig = "([BLjava/lang/String;)V" then
    pure .String_init
  else JNI.fail

/-- The function `NewStringUTF(bytes)` of an ASCII literal. -/
def NewStringUTF (bytes : String) : JNI jstring := do
  JNI.call .NewStringUTF
  pure bytes.toList

/-- The function `CallObjectMethod(obj, methodID, arg)` on a string object: with
    `getBytes` and the charset name `UTF-8` the result is the byte array of
    the UTF-8 encoding of the text. The runtime has no array of `2^31` or
    more elements. -/
def CallObjectMethod (obj : jstring) (methodID : jmethodID) (arg : jstring) :
    JNI (List jbyte) := do
  JNI.call .CallObjectMethod
  if methodID = .String_getBytes ∧ arg = "UTF-8".toList
      ∧ (utf8Encode obj).length < 2147483648 then
    pure (utf8Encode obj)
  else JNI.fail

/-- The function `NewObject(clazz, methodID, bytes, encoding)`: with the constructor
    `String(byte[], String)` and the charset name `UTF-8` the result is the
    string decoded from the bytes. The byte array passed is recorded. -/
def NewObject (clazz : jclass) (methodID : jmethodID) (bytes : List jbyte)
    (encoding : jstring) : JNI jstring := do
  JNI.call (.NewObject bytes)
  if clazz = "java/lang/String" ∧ methodID = .String_init ∧ encoding = "UTF-8".toList then
    pure (utf8Decode bytes)
  else JNI.fail

/-! ## String conversion (`Native.h` lines 11-55) -/

/-- The method `str.c_str()`: the bytes of the string followed by the terminating zero. -/
def c_str (str : List Nat) : List Nat := str ++ [0]

/-- A byte other than the terminating zero. -/
def nonzeroByte (b : Nat) : Bool := !(b == 0)

/-- The function `strlen(data)`: the number of bytes before the first zero byte. -/
def strlen : List Nat → Nat
  | [] => 0
  | b :: bs => if b = 0 then 0 else strlen bs + 1

/-- The function `jstring_to_cpp_string(env, jstr)`; `none` is the null handle. -/
def jstring_to_cpp_string (jstr : Option jstring) : JNI (List Nat) :=
  match jstr with
  | none => pure []
  | some s => do
    let stringClass ← GetObjectClass s
    let getBytes ← GetMethodID stringClass "getBytes" "(Ljava/lang/String;)[B"
    let charsetName ← NewStringUTF "UTF-8"
    let stringJbytes ← CallObjectMethod s getBytes charsetName
    let length := toSizeT (← GetArrayLength stringJbytes)
    let pBytes ← getArrayElements .GetByteArrayElements stringJbytes
    let ret := readN pBytes length
    releaseArrayElements .ReleaseByteArrayElements
    DeleteLocalRef
    DeleteLocalRef
    pure ret

/-- The function `cpp_string_to_jstring(env, str)`. -/
def cpp_string_to_jstring (str : List Nat) : JNI jstring := do
  let data := c_str str
  let strClass ← FindClass "java/lang/String"
  let strClassInitMethodID ← GetMethodID strClass "<init>" "([BLjava/lang/String;)V"
  let bytes ← newArray .NewByteArray (toJsize (strlen data))
  let bytes ← setArrayRegion .SetByteArrayRegion bytes 0 (toJsize (strlen data)) (ptrOf data)
  let encoding ← NewStringUTF "UTF-8"
  let res ← NewObject strClass strClassInitMethodID bytes encoding
  DeleteLocalRef
  DeleteLocalRef
  DeleteLocalRef
  pure res

/-- The string round trip: to a native string and back. -/
def stringRoundTrip (s : jstring) : JNI jstring := do
  let str ← jstring_to_cpp_string (some s)
  cpp_string_to_jstring str

/-! ## The image matrix `cv::Mat`

Only continuous two-dimensional matrices occur; the pixel storage is the
pointer `data`, read by byte offset. -/

/-- Depth code of 8 bit unsigned elements. -/
def CV_8U : Nat := 0

/-- The macro `CV_MAKETYPE(depth, cn)`. -/
def CV_MAKETYPE (depth cn : Nat) : Nat := depth % 8 + (cn - 1) * 8

/-- Two channels of 8 bit unsigned elements. -/
def CV_8UC2 : Nat := CV_MAKETYPE CV_8U 2

/-- Four channels of 8 bit unsigned elements. -/
def CV_8UC4 : Nat := CV_MAKETYPE CV_8U 4

/-- The macro `CV_MAT_DEPTH(type)`. -/
def CV_MAT_DEPTH (type : Nat) : Nat := type % 8

/-- The macro `CV_MAT_CN(type)`. -/
def CV_MAT_CN (type : Nat) : Nat := type / 8 % 512 + 1

/-- Bytes of one element of the given depth. -/
def depthSize (depth : Nat) : Nat :=
  if depth ≤ 1 then 1 else if depth ≤ 3 then 2 else if depth ≤ 5 then 4 else if depth = 6 then 8 else 2

/-- The macro `CV_ELEM_SIZE(type)`: bytes of one pixel. -/
def CV_ELEM_SIZE (type : Nat) : Nat := CV_MAT_CN type * depthSize (CV_MAT_DEPTH type)

/-- The conversion code `cv::COLOR_BGR5652RGBA`. -/
def COLOR_BGR5652RGBA : Nat := 19

/-- A `cv::Mat` header: `rows` and `cols` are `int`s, `data` is null (`none`)
    or points to `rows * cols * elemSize` bytes. -/
structure Mat where
  rows : Int
  cols : Int
  type : Nat
  data : Option (Ptr Nat)

/-- The method `Mat::channels()`. -/
def Mat.channels (m : Mat) : Nat := CV_MAT_CN m.type

/-- The method `Mat::depth()`. -/
def Mat.depth (m : Mat) : Nat := CV_MAT_DEPTH m.type

/-- Number of bytes of pixel storage of the matrix. -/
def Mat.total (m : Mat) : Nat := m.rows.toNat * m.cols.toNat * CV_ELEM_SIZE m.type

/-- The method `m.create(rows, cols, type)`: nothing happens when the matrix already has
    that shape and type and has storage; otherwise new storage is allocated,
    whose content `fresh` is unspecified. A negative size is an error
    (`none`: the library throws). -/
def Mat.create (m : Mat) (fresh : Ptr Nat) (rows cols : Int) (type : Nat) : Option Mat :=
  if m.rows = rows ∧ m.cols = cols ∧ m.type = type ∧ m.data.isSome then some m
  else if rows < 0 ∨ cols < 0 then none
  else some { rows := rows, cols := cols, type := type, data := some fresh }

/-- The constructor `cv::Mat(rows, cols, type, data)`: a header over storage
    the caller owns, nothing is copied. -/
def Mat.wrap (rows cols : Int) (type : Nat) (data : Ptr Nat) : Mat :=
  { rows := rows, cols := cols, type := type, data := some data }

/-- The method `src.copyTo(dst)`: `dst.create(src.rows, src.cols, src.type())`, then the
    bytes of `src` are copied into the storage of `dst`. -/
def Mat.copyTo (src : Mat) (fresh : Ptr Nat) (dst : Mat) : Option Mat :=
  match dst.create fresh src.rows src.cols src.type, src.data with
  | some d, some p =>
    match d.data with
    | some q => some { d with data := some (fun i => if i < src.total then p i else q i) }
    | none => none
  | _, _ => none

/-- One byte of the result of the 565 to RGBA conversion, following the
    reference loop of the image library for 6 green bits, 4 destination
    channels and the blue channel at index 2: with `t` the 16 bit little
    endian value of the source pixel,
    `dst[2] = (uchar)(t << 3); dst[1] = (uchar)((t >> 3) & ~3);
     dst[0] = (uchar)((t >> 8) & ~7); dst[3] = 255`. -/
def bgr565ToRgbaByte (src : Ptr Nat) (i : Nat) : Nat :=
  let px := i / 4
  let t := src (2 * px) % 256 + 256 * (src (2 * px + 1) % 256)
  match i % 4 with
  | 0 => t / 256 / 8 * 8 % 256
  | 1 => t / 8 / 4 * 4 % 256
  | 2 => t * 8 % 256
  | _ => 255

/-- The function `cv::cvtColor(src, dst, code)` for `code = COLOR_BGR5652RGBA`: the source
    must have two 8 bit channels; `dst.create(src.rows, src.cols, CV_8UC4)`,
    then every pixel is converted. Other codes are not used by the program
    and are errors here. -/
def cvtColor (src : Mat) (fresh : Ptr Nat) (dst : Mat) (code : Nat) : Option Mat :=
  if code = COLOR_BGR5652RGBA ∧ src.type = CV_8UC2 then
    match dst.create fresh src.rows src.cols CV_8UC4, src.data with
    | some d, some p =>
      match d.data with
      | some q =>
        some { d with data := some (fun i =>
          if i < src.rows.toNat * src.cols.toNat * 4 then bgr565ToRgbaByte p i else q i) }
      | none => none
    | _, _ => none
  else none

/-! ## Bitmaps (`android/bitmap.h`) -/

/-- The constant `ANDROID_BITMAP_FORMAT_RGBA_8888`. -/
def ANDROID_BITMAP_FORMAT_RGBA_8888 : Int := 1

/-- The constant `ANDROID_BITMAP_FORMAT_RGB_565`. -/
def ANDROID_BITMAP_FORMAT_RGB_565 : Int := 4

/-- The record `AndroidBitmapInfo`: `uint32_t width, height, stride`,
    `int32_t format`, `uint32_t flags`. -/
structure AndroidBitmapInfo where
  width : Nat
  height : Nat
  stride : Nat
  format : Int
  flags : Nat

/-- What the platform answers for a bitmap handle. The bitmap behind it is an
    `android.graphics.Bitmap`, whose width and height are positive Java
    `int`s. `infoResult` and `lockResult` are the return codes of
    `AndroidBitmap_getInfo` and `AndroidBitmap_lockPixels` (negative on
    failure), `lockedAddr` the address `lockPixels` stores (`none`: null). -/
structure Bitmap where
  width : Nat
  height : Nat
  stride : Nat
  format : Int
  flags : Nat
  infoResult : Int
  lockResult : Int
  lockedAddr : Option (Ptr Nat)
  width_pos : 0 < width
  width_le : width ≤ 2147483647
  height_pos : 0 < height
  height_le : height ≤ 2147483647

/-- How a run of `BitmapToMat` leaves the routine: by `return`, or by the
    exception of a failed `CV_Assert` or library call at a source line. -/
inductive Outcome
  | returned
  | threw (line : Nat)
deriving DecidableEq, Repr

/-- What a run of `BitmapToMat` leaves behind: the way it left, the
    destination matrix, and how often the pixel buffer was locked with
    success and unlocked. -/
structure BitmapRun where
  outcome : Outcome
  dst : Mat
  locks : Nat
  unlocks : Nat

/-- The function `AndroidBitmap_getInfo(env, bitmap, &info)`. -/
def AndroidBitmap_getInfo (bitmap : Bitmap) : Int × AndroidBitmapInfo :=
  (bitmap.infoResult,
   { width := bitmap.width, height := bitmap.height, stride := bitmap.stride,
     format := bitmap.format, flags := bitmap.flags })

/-- The function `AndroidBitmap_lockPixels(env, bitmap, &pixels)`: the return code, the
    address stored in `pixels`, and the number of locks held afterwards. -/
def AndroidBitmap_lockPixels (bitmap : Bitmap) (locks : Nat) :
    Int × Option (Ptr Nat) × Nat :=
  if bitmap.lockResult ≥ 0 then (bitmap.lockResult, bitmap.lockedAddr, locks + 1)
  else (bitmap.lockResult, none, locks)

/-- Conversion of a `uint32_t` to `int`, as done for the arguments of
    `Mat::create` and of the `cv::Mat` constructor. -/
def toInt (n : Nat) : Int := toJsize (n : Int)

/-- The function `BitmapToMat(env, bitmap, mat)` (`Native.h` lines 109-137). `fresh` is
    the content of storage newly allocated by the image library. The
    `LOGE`/`LOGD` lines only write to the log and are left out. -/
def BitmapToMat (fresh : Ptr Nat) (bitmap : Bitmap) (mat : Mat) : BitmapRun :=
  let (rc, info) := AndroidBitmap_getInfo bitmap
  if ¬ (rc ≥ 0) then ⟨.threw 114, mat, 0, 0⟩
  else if ¬ (info.format = ANDROID_BITMAP_FORMAT_RGBA_8888 ∨
             info.format = ANDROID_BITMAP_FORMAT_RGB_565) then ⟨.threw 115, mat, 0, 0⟩
  else
    let (rcLock, pixels, locks) := AndroidBitmap_lockPixels bitmap 0
    if ¬ (rcLock ≥ 0) then ⟨.threw 117, mat, locks, 0⟩
    else
      match pixels with
      | none => ⟨.threw 118, mat, locks, 0⟩
      | some px =>
        match mat.create fresh (toInt info.height) (toInt info.width) CV_8UC4 with
        | none => ⟨.threw 120, mat, locks, 0⟩
        | some dst =>
          if info.format = ANDROID_BITMAP_FORMAT_RGBA_8888 then
            let tmp := Mat.wrap (toInt info.height) (toInt info.width) CV_8UC4 px
            match tmp.copyTo fresh dst with
            | none => ⟨.threw 128, dst, locks, 0⟩
            | some dst1 => ⟨.returned, dst1, locks, 1⟩
          else
            let tmp := Mat.wrap (toInt info.height) (toInt info.width) CV_8UC2 px
            match cvtColor tmp fresh dst COLOR_BGR5652RGBA with
            | none => ⟨.threw 133, dst, locks, 0⟩
            | some dst1 => ⟨.returned, dst1, locks, 1⟩

/-! ### The routine with an allocator that can fail

The functions above take the storage the image library allocates for
granted. Below the allocator is explicit: `alloc n` is the content of the
storage obtained for `n` bytes, `none` when the library cannot obtain it (it
then throws). Everything else is as above. -/

/-- The method `m.create(rows, cols, type)` over an allocator that can fail:
    as `Mat.create`, and an error also when new storage is needed and cannot
    be obtained. -/
def Mat.createWith (m : Mat) (alloc : Nat → Option (Ptr Nat)) (rows cols : Int)
    (type : Nat) : Option Mat :=
  if m.rows = rows ∧ m.cols = cols ∧ m.type = type ∧ m.data.isSome then some m
  else if rows < 0 ∨ cols < 0 then none
  else
    match alloc (rows.toNat * cols.toNat * CV_ELEM_SIZE type) with
    | some fresh => some { rows := rows, cols := cols, type := type, data := some fresh }
    | none => none

/-- The method `src.copyTo(dst)` over an allocator that can fail. -/
def Mat.copyToWith (src : Mat) (alloc : Nat → Option (Ptr Nat)) (dst : Mat) : Option Mat :=
  match dst.createWith alloc src.rows src.cols src.type, src.data with
  | some d, some p =>
    match d.data with
    | some q => some { d with data := some (fun i => if i < src.total then p i else q i) }
    | none => none
  | _, _ => none

/-- The function `cv::cvtColor(src, dst, code)` over an allocator that can
    fail. -/
def cvtColorWith (src : Mat) (alloc : Nat → Option (Ptr Nat)) (dst : Mat) (code : Nat) :
    Option Mat :=
  if code = COLOR_BGR5652RGBA ∧ src.type = CV_8UC2 then
    match dst.createWith alloc src.rows src.cols CV_8UC4, src.data with
    | some d, some p =>
      match d.data with
      | some q =>
        some { d with data := some (fun i =>
          if i < src.rows.toNat * src.cols.toNat * 4 then bgr565ToRgbaByte p i else q i) }
      | none => none
    | _, _ => none
  else none

/-- The function `BitmapToMat(env, bitmap, mat)` (`Native.h` lines 109-137)
    over an allocator that can fail: the statements of `BitmapToMat`, each
    library call going through `alloc`. -/
def BitmapToMatWith (alloc : Nat → Option (Ptr Nat)) (bitmap : Bitmap) (mat : Mat) :
    BitmapRun :=
  let (rc, info) := AndroidBitmap_getInfo bitmap
  if ¬ (rc ≥ 0) then ⟨.threw 114, mat, 0, 0⟩
  else if ¬ (info.format = ANDROID_BITMAP_FORMAT_RGBA_8888 ∨
             info.format = ANDROID_BITMAP_FORMAT_RGB_565) then ⟨.threw 115, mat, 0, 0⟩
  else
    let (rcLock, pixels, locks) := AndroidBitmap_lockPixels bitmap 0
    if ¬ (rcLock ≥ 0) then ⟨.threw 117, mat, locks, 0⟩
    else
      match pixels with
      | none => ⟨.threw 118, mat, locks, 0⟩
      | some px =>
        match mat.createWith alloc (toInt info.height) (toInt info.width) CV_8UC4 with
        | none => ⟨.threw 120, mat, locks, 0⟩
        | some dst =>
          if info.format = ANDROID_BITMAP_FORMAT_RGBA_8888 then
            let tmp := Mat.wrap (toInt info.height) (toInt info.width) CV_8UC4 px
            match tmp.copyToWith alloc dst with
            | none => ⟨.threw 128, dst, locks, 0⟩
            | some dst1 => ⟨.returned, dst1, locks, 1⟩
          else
            let tmp := Mat.wrap (toInt info.height) (toInt info.width) CV_8UC2 px
            match cvtColorWith tmp alloc dst COLOR_BGR5652RGBA with
            | none => ⟨.threw 133, dst, locks, 0⟩
            | some dst1 => ⟨.returned, dst1, locks, 1⟩

/-- A 2 by 2 bitmap whose locked buffer holds the bytes `10, 11, 12, ...`. -/
def sampleBitmap (format : Int) (lockedAddr : Option (Ptr Nat)) : Bitmap :=
  { width := 2, height := 2, stride := 8, format := format, flags := 0,
    infoResult := 0, lockResult := 0, lockedAddr := lockedAddr,
    width_pos := by decide, width_le := by decide,
    height_pos := by decide, height_le := by decide }

/-- A matrix without storage, as `cv::Mat()` constructs it. -/
def emptyMat : Mat := { rows := 0, cols := 0, type := 0, data := none }

/-- The result of a computation started in an environment. -/
def JNI.result {α : Type} (m : JNI α) (env : JNIEnv) : Option α := (m env).1

/-- What the claims about the `cpp_array_to_*` helpers ask of a result: a
    managed array of length exactly `len` whose element `i` is `buf[i]`. -/
def CopiesBuffer (r : Option (List Nat)) (buf : Ptr Nat) (len : Int) : Prop :=
  ∃ arr, r = some arr ∧ (arr.length : Int) = len ∧
    ∀ i : Nat, (i : Int) < len → arr[i]? = some (buf i)

/-! ## Basic facts -/

theorem toJsize_of_range (n : Int) (h0 : 0 ≤ n) (h1 : n ≤ 2147483647) : toJsize n = n := by
  unfold toJsize
  have hr : ((n % 4294967296).toNat : Int) = n := by omega
  have hlt : (n % 4294967296).toNat < 2147483648 := by omega
  simp only [hlt, if_true, hr]

theorem length_readN {α : Type} (p : Ptr α) (n : Nat) : (readN p n).length = n := by
  simp [readN]

theorem getElem?_readN {α : Type} (p : Ptr α) (n i : Nat) (h : i < n) :
    (readN p n)[i]? = some (p i) := by
  simp [readN, List.getElem?_map, List.getElem?_range h]

theorem readN_ptrOf (xs : List Nat) : readN (ptrOf xs) xs.length = xs := by
  apply List.ext_getElem?
  intro i
  by_cases h : i < xs.length
  · rw [getElem?_readN _ _ _ h]
    simp [ptrOf, List.getD, List.getElem?_eq_getElem h]
  · have h1 : xs.length ≤ i := Nat.le_of_not_lt h
    rw [List.getElem?_eq_none h1, List.getElem?_eq_none]
    rw [length_readN]; exact h1

/-- Running `New<Type>Array` then `Set<Type>ArrayRegion` over the whole array,
    as the three `cpp_array_to_*` helpers, the 64 bit helper and
    `cpp_string_to_jstring` do, and going on with `k`. -/
theorem newThenSet_bind {β : Type} (c1 c2 : JniCall) (n : Int) (buf : Ptr Nat)
    (k : List Nat → JNI β) (env : JNIEnv) (h : 0 ≤ n) :
    (newArray c1 n >>= fun r => setArrayRegion c2 r 0 n buf >>= k) env
      = k (readN buf n.toNat) ⟨env.calls ++ [c1, c2]⟩ := by
  have h1 : ¬ n < 0 := by omega
  have h2 : ¬ ((n.toNat : Int) < n) := by omega
  simp [newArray, setArrayRegion, Bind.bind, JNI.andThen, JNI.call, Pure.pure, JNI.ret,
    JNI.fail, h1, h2]

theorem newThenSet_run (c1 c2 : JniCall) (n : Int) (buf : Ptr Nat) (env : JNIEnv)
    (h : 0 ≤ n) :
    (newArray c1 n >>= fun r => setArrayRegion c2 r 0 n buf >>= fun r => pure r) env
      = (some (readN buf n.toNat), ⟨env.calls ++ [c1, c2]⟩) :=
  newThenSet_bind c1 c2 n buf (fun r => pure r) env h

theorem newThenSet_refused (c1 c2 : JniCall) (n : Int) (buf : Ptr Nat) (env : JNIEnv)
    (h : n < 0) :
    (newArray c1 n >>= fun r => setArrayRegion c2 r 0 n buf >>= fun r => pure r) env
      = (none, ⟨env.calls ++ [c1]⟩) := by
  simp [newArray, Bind.bind, JNI.andThen, JNI.call, JNI.fail, h]

theorem fromManaged_run (c1 c2 : JniCall) (data : List Nat) (env : JNIEnv) :
    (GetArrayLength data >>= fun data_size =>
      getArrayElements c1 data >>= fun data_ptr =>
      releaseArrayElements c2 >>= fun _ => pure (readN data_ptr data_size.toNat)) env
      = (some data, ⟨env.calls ++ [.GetArrayLength, c1, c2]⟩) := by
  simp [GetArrayLength, getArrayElements, releaseArrayElements, Bind.bind, JNI.andThen,
    JNI.call, Pure.pure, JNI.ret, readN_ptrOf]

theorem fillLoop_length (vec : List int64_t) (todo i : Nat) (buf : List jlong) :
    (fillLoop vec todo i buf).length = buf.length := by
  induction todo generalizing i buf with
  | zero => rfl
  | succ k ih => simp [fillLoop, ih]

theorem fillLoop_getElem? (vec : List int64_t) (todo i : Nat) (buf : List jlong) (j : Nat) :
    (fillLoop vec todo i buf)[j]? =
      if i ≤ j ∧ j < i + todo ∧ j < buf.length then some (vec.getD j 0) else buf[j]? := by
  induction todo generalizing i buf with
  | zero =>
    have : ¬ (i ≤ j ∧ j < i ∧ j < buf.length) := by omega
    simp [fillLoop, this]
  | succ k ih =>
    rw [fillLoop, ih, List.length_set, List.getElem?_set]
    by_cases hij : i = j
    · subst hij
      by_cases hl : i < buf.length
      · have h1 : ¬ (i + 1 ≤ i ∧ i < i + 1 + k ∧ i < buf.length) := by omega
        have h2 : i ≤ i ∧ i < i + (k + 1) ∧ i < buf.length := by omega
        simp [h1, h2, hl, castToJlong]
      · have h1 : ¬ (i + 1 ≤ i ∧ i < i + 1 + k ∧ i < buf.length) := by omega
        have h2 : ¬ (i ≤ i ∧ i < i + (k + 1) ∧ i < buf.length) := by omega
        have h3 : buf.length ≤ i := by omega
        simp [h1, h2, hl, List.getElem?_eq_none h3]
    · by_cases hc : i + 1 ≤ j ∧ j < i + 1 + k ∧ j < buf.length
      · have h2 : i ≤ j ∧ j < i + (k + 1) ∧ j < buf.length := by omega
        simp [hc, h2]
      · have h2 : ¬ (i ≤ j ∧ j < i + (k + 1) ∧ j < buf.length) := by omega
        simp [hc, h2, hij]

/-- The copy loop of the 64 bit helper fills the temporary buffer with the
    elements of the vector, whatever the buffer held before. -/
theorem fillLoop_all (uninit : Ptr jlong) (vec : List int64_t) :
    fillLoop vec vec.length 0 (readN uninit vec.length) = vec := by
  apply List.ext_getElem?
  intro j
  rw [fillLoop_getElem?, length_readN]
  by_cases h : j < vec.length
  · have h2 : 0 ≤ j ∧ j < 0 + vec.length ∧ j < vec.length := by omega
    simp [h2, List.getD, List.getElem?_eq_getElem h]
  · have h2 : ¬ (0 ≤ j ∧ j < 0 + vec.length ∧ j < vec.length) := by omega
    have h3 : vec.length ≤ j := by omega
    rw [if_neg h2, List.getElem?_eq_none h3, List.getElem?_eq_none]
    rw [length_readN]; exact h3

/-- The float round trip for any `len` whose `jsize` value is not negative:
    the vector read back holds the first `toJsize len` elements of the buffer. -/
theorem floatRoundTrip_run (buf : Ptr jfloat) (len : Int) (env : JNIEnv)
    (h : 0 ≤ toJsize len) :
    ((cpp_array_to_jfloatarray buf len >>= jfloatarray_to_float_vector).result env)
      = some (readN buf (toJsize len).toNat) := by
  have h1 := newThenSet_run .NewFloatArray .SetFloatArrayRegion (toJsize len) buf env h
  have h2 := fromManaged_run .GetFloatArrayElements .ReleaseFloatArrayElements
    (readN buf (toJsize len).toNat) ⟨env.calls ++ [.NewFloatArray, .SetFloatArrayRegion]⟩
  unfold cpp_array_to_jfloatarray jfloatarray_to_float_vector JNI.result
  show (JNI.andThen _ _ env).1 = _
  unfold JNI.andThen
  rw [h1]
  simp only []
  rw [h2]

theorem copiesBuffer_readN (buf : Ptr Nat) (len : Int) (h : 0 ≤ len) :
    CopiesBuffer (some (readN buf len.toNat)) buf len := by
  refine ⟨_, rfl, ?_, ?_⟩
  · rw [length_readN]; omega
  · intro i hi
    exact getElem?_readN _ _ _ (by omega)

/-! ## Array conversion: the claims -/

/-- C2 (as amended): for every native sequence `S` of 64 bit integers with
    fewer than `2^31` elements, `jlongarray_to_int64_vector` applied to
    `int64_vector_to_jlongarray(S)` gives back `S`, element for element and
    with the same length; and for every native float buffer `S` with fewer
    than `2^31` elements, `jfloatarray_to_float_vector` applied to
    `cpp_array_to_jfloatarray(S, len)`, `len` the length of `S`, gives back `S`. -/
theorem array_round_trip (env : JNIEnv) (uninit : Ptr jlong) (S : List Nat)
    (h : S.length ≤ 2147483647) :
    (int64_vector_to_jlongarray uninit S >>= jlongarray_to_int64_vector).result env = some S
    ∧ (cpp_array_to_jfloatarray (ptrOf S) S.length >>= jfloatarray_to_float_vector).result env
        = some S := by
  have hj : toJsize (S.length : Int) = S.length :=
    toJsize_of_range _ (by omega) (by omega)
  constructor
  · have h1 := newThenSet_run .NewLongArray .SetLongArrayRegion (S.length : Int)
      (ptrOf (fillLoop S S.length 0 (readN uninit S.length))) env (by omega)
    have h2 := fromManaged_run .GetLongArrayElements .ReleaseLongArrayElements
      S ⟨env.calls ++ [.NewLongArray, .SetLongArrayRegion]⟩
    unfold int64_vector_to_jlongarray jlongarray_to_int64_vector JNI.result
    rw [hj]
    show (JNI.andThen _ _ env).1 = _
    unfold JNI.andThen
    rw [h1]
    simp only [Int.toNat_ofNat]
    rw [fillLoop_all, readN_ptrOf, h2]
  · rw [floatRoundTrip_run _ _ _ (by omega), hj, Int.toNat_ofNat, readN_ptrOf]

/-- Witness of `array_round_trip`: a three element sequence. -/
theorem array_round_trip_witness :
    [7, 8, 9].length ≤ 2147483647 ∧
    ((int64_vector_to_jlongarray (fun _ => 5) [7, 8, 9] >>= jlongarray_to_int64_vector).result ⟨[]⟩
        = some [7, 8, 9]
     ∧ (cpp_array_to_jfloatarray (ptrOf [7, 8, 9]) ([7, 8, 9] : List Nat).length
          >>= jfloatarray_to_float_vector).result ⟨[]⟩ = some [7, 8, 9]) :=
  ⟨by decide, array_round_trip ⟨[]⟩ (fun _ => 5) [7, 8, 9] (by decide)⟩

/-- C2 as stated fails: of a float buffer passed with the length
    `len = 2^32 + 1` (every element 7), one element comes back, because the
    length is converted to `jsize`: the vector read back has length 1, not
    `len`. -/
theorem array_round_trip_counterexample :
    (cpp_array_to_jfloatarray (fun _ => 7) 4294967297
        >>= jfloatarray_to_float_vector).result ⟨[]⟩ = some [7]
    ∧ ¬ ∃ v, (cpp_array_to_jfloatarray (fun _ => 7) 4294967297
                >>= jfloatarray_to_float_vector).result ⟨[]⟩ = some v
             ∧ (v.length : Int) = 4294967297 := by
  have hr : (cpp_array_to_jfloatarray (fun _ => 7) 4294967297
      >>= jfloatarray_to_float_vector).result ⟨[]⟩ = some [7] := by decide
  refine ⟨hr, ?_⟩
  rw [hr]
  rintro ⟨v, hv, hlen⟩
  injection hv with hv
  subst hv
  simp at hlen

/-- C3 (as amended): for each of `cpp_array_to_jfloatarray`,
    `cpp_array_to_jintarray` and `cpp_array_to_jbytearray`, for every native
    buffer and every length `len` with `0 ≤ len ≤ 2^31 - 1`, the returned
    managed array has length exactly `len` and its element `i` is `buf[i]`
    for every `i < len`. -/
theorem cpp_array_copies (env : JNIEnv) (buf : Ptr Nat) (len : Int)
    (h0 : 0 ≤ len) (h1 : len ≤ 2147483647) :
    CopiesBuffer ((cpp_array_to_jfloatarray buf len).result env) buf len
    ∧ CopiesBuffer ((cpp_array_to_jintarray buf len).result env) buf len
    ∧ CopiesBuffer ((cpp_array_to_jbytearray buf len).result env) buf len := by
  have hj : toJsize len = len := toJsize_of_range len h0 h1
  refine ⟨?_, ?_, ?_⟩
  · have h := newThenSet_run .NewFloatArray .SetFloatArrayRegion len buf env h0
    unfold cpp_array_to_jfloatarray JNI.result
    rw [hj, h]
    exact copiesBuffer_readN buf len h0
  · have h := newThenSet_run .NewIntArray .SetIntArrayRegion len buf env h0
    unfold cpp_array_to_jintarray JNI.result
    rw [hj, h]
    exact copiesBuffer_readN buf len h0
  · have h := newThenSet_run .NewByteArray .SetByteArrayRegion len buf env h0
    unfold cpp_array_to_jbytearray JNI.result
    rw [hj, h]
    exact copiesBuffer_readN buf len h0

/-- Witness of `cpp_array_copies`: three elements of the buffer `10, 11, ...`. -/
theorem cpp_array_copies_witness :
    (0 : Int) ≤ 3 ∧ (3 : Int) ≤ 2147483647 ∧
    (CopiesBuffer ((cpp_array_to_jfloatarray (fun i => i + 10) 3).result ⟨[]⟩) (fun i => i + 10) 3
     ∧ CopiesBuffer ((cpp_array_to_jintarray (fun i => i + 10) 3).result ⟨[]⟩) (fun i => i + 10) 3
     ∧ CopiesBuffer ((cpp_array_to_jbytearray (fun i => i + 10) 3).result ⟨[]⟩) (fun i => i + 10) 3) :=
  ⟨by decide, by decide, cpp_array_copies ⟨[]⟩ (fun i => i + 10) 3 (by decide) (by decide)⟩

/-- C3 as stated fails: with `len = 2^32 + 2` the array returned by
    `cpp_array_to_jintarray` has two elements, not `len`. -/
theorem cpp_array_copies_counterexample :
    (cpp_array_to_jintarray (fun i => i + 10) 4294967298).result ⟨[]⟩ = some [10, 11]
    ∧ ¬ CopiesBuffer ((cpp_array_to_jintarray (fun i => i + 10) 4294967298).result ⟨[]⟩)
          (fun i => i + 10) 4294967298 := by
  have hr : (cpp_array_to_jintarray (fun i => i + 10) 4294967298).result ⟨[]⟩ = some [10, 11] := by
    decide
  refine ⟨hr, ?_⟩
  rw [hr]
  rintro ⟨arr, harr, hlen, -⟩
  injection harr with harr
  subst harr
  simp at hlen

/-! ## String conversion: the claims -/

theorem nonzeroByte_of_ne (b : Nat) (h : b ≠ 0) : nonzeroByte b = true := by
  simp [nonzeroByte, h]

theorem nonzeroByte_zero : nonzeroByte 0 = false := rfl

theorem readN_ptrOf_cons (b : Nat) (bs : List Nat) (n : Nat) :
    readN (ptrOf (b :: bs)) (n + 1) = b :: readN (ptrOf bs) n := by
  simp [readN, List.range_succ_eq_map, ptrOf, List.map_map, Function.comp_def]

theorem readN_strlen (xs : List Nat) :
    readN (ptrOf xs) (strlen xs) = xs.takeWhile nonzeroByte := by
  induction xs with
  | nil => simp [strlen, readN]
  | cons b bs ih =>
    by_cases hb : b = 0
    · subst hb
      simp [strlen, readN, List.takeWhile_cons, nonzeroByte_zero]
    · simp [strlen, hb, readN_ptrOf_cons, ih, List.takeWhile_cons, nonzeroByte_of_ne b hb]

theorem takeWhile_c_str (str : List Nat) :
    (c_str str).takeWhile nonzeroByte = str.takeWhile nonzeroByte := by
  induction str with
  | nil => simp [c_str, List.takeWhile_cons, nonzeroByte_zero]
  | cons b bs ih =>
    by_cases hb : b = 0
    · subst hb
      simp [c_str, List.takeWhile_cons, nonzeroByte_zero]
    · simp only [c_str, List.cons_append] at ih ⊢
      simp [List.takeWhile_cons, nonzeroByte_of_ne b hb, ih]

theorem strlen_eq_length_takeWhile (xs : List Nat) :
    strlen xs = (xs.takeWhile nonzeroByte).length := by
  rw [← readN_strlen, length_readN]

/-- The calls `cpp_string_to_jstring` makes and the string it returns, when
    the length `strlen(data)` survives the conversion to `jsize`. -/
theorem cpp_string_to_jstring_run (env : JNIEnv) (str : List Nat)
    (h : (str.takeWhile nonzeroByte).length ≤ 2147483647) :
    cpp_string_to_jstring str env =
      (some (utf8Decode (str.takeWhile nonzeroByte)),
       ⟨env.calls ++ [.FindClass, .GetMethodID, .NewByteArray, .SetByteArrayRegion,
          .NewStringUTF, .NewObject (str.takeWhile nonzeroByte),
          .DeleteLocalRef, .DeleteLocalRef, .DeleteLocalRef]⟩) := by
  have hlen : strlen (c_str str) = (str.takeWhile nonzeroByte).length := by
    rw [strlen_eq_length_takeWhile, takeWhile_c_str]
  have hread : readN (ptrOf (c_str str)) (strlen (c_str str))
      = str.takeWhile nonzeroByte := by
    rw [readN_strlen, takeWhile_c_str]
  have hj : toJsize ((strlen (c_str str) : Nat) : Int) = (strlen (c_str str) : Nat) :=
    toJsize_of_range _ (by omega) (by omega)
  have h1 : ¬ ((strlen (c_str str) : Nat) : Int) < 0 := by omega
  simp [cpp_string_to_jstring, FindClass, GetMethodID, newArray, setArrayRegion, NewStringUTF,
    NewObject, DeleteLocalRef, Bind.bind, JNI.andThen, JNI.call, Pure.pure, JNI.ret, JNI.fail,
    hj, hread, h1]

/-- When `strlen(data)` converts to a negative `jsize`, `NewByteArray` is
    refused and no string is constructed. -/
theorem cpp_string_to_jstring_refused (env : JNIEnv) (str : List Nat)
    (h : toJsize ((strlen (c_str str) : Nat) : Int) < 0) :
    cpp_string_to_jstring str env =
      (none, ⟨env.calls ++ [.FindClass, .GetMethodID, .NewByteArray]⟩) := by
  simp [cpp_string_to_jstring, FindClass, GetMethodID, newArray, Bind.bind, JNI.andThen,
    JNI.call, Pure.pure, JNI.ret, JNI.fail, h]

theorem strlen_c_str_replicate (n b : Nat) (hb : b ≠ 0) :
    strlen (c_str (List.replicate n b)) = n := by
  induction n with
  | zero => simp [c_str, strlen]
  | succ k ih =>
    have hc : c_str (List.replicate (k + 1) b) = b :: c_str (List.replicate k b) := by
      simp [c_str, List.replicate_succ]
    rw [hc, strlen, if_neg hb, ih]

/-- C4: `jstring_to_cpp_string` applied to the null handle returns the empty
    byte sequence and leaves the environment as it found it: no call into the
    runtime is made. -/
theorem jstring_to_cpp_string_null (env : JNIEnv) :
    jstring_to_cpp_string none env = (some [], env) := rfl

/-- C10 (as amended): for every native byte string whose part before the
    first zero byte has fewer than `2^31` bytes, the byte array
    `cpp_string_to_jstring` passes to the `String` constructor is exactly
    that part (the whole string when it has no zero byte), its length is
    `strlen` of the data, and the constructor is called once. -/
theorem cpp_string_to_jstring_bytes (env : JNIEnv) (str : List Nat)
    (h : (str.takeWhile nonzeroByte).length ≤ 2147483647) :
    (cpp_string_to_jstring str env).2.calls =
      env.calls ++ [.FindClass, .GetMethodID, .NewByteArray, .SetByteArrayRegion,
        .NewStringUTF, .NewObject (str.takeWhile nonzeroByte),
        .DeleteLocalRef, .DeleteLocalRef, .DeleteLocalRef]
    ∧ (str.takeWhile nonzeroByte).length = strlen (c_str str) := by
  constructor
  · rw [cpp_string_to_jstring_run env str h]
  · rw [strlen_eq_length_takeWhile, takeWhile_c_str]

/-- Witness of `cpp_string_to_jstring_bytes`: the bytes 65, 0, 66 (`A`, zero, `B`). -/
theorem cpp_string_to_jstring_bytes_witness :
    (([65, 0, 66] : List Nat).takeWhile nonzeroByte).length ≤ 2147483647
    ∧ ((cpp_string_to_jstring [65, 0, 66] ⟨[]⟩).2.calls =
        [] ++ [.FindClass, .GetMethodID, .NewByteArray, .SetByteArrayRegion,
          .NewStringUTF, .NewObject (([65, 0, 66] : List Nat).takeWhile nonzeroByte),
          .DeleteLocalRef, .DeleteLocalRef, .DeleteLocalRef]
      ∧ (([65, 0, 66] : List Nat).takeWhile nonzeroByte).length
          = strlen (c_str [65, 0, 66])) :=
  ⟨by decide, cpp_string_to_jstring_bytes ⟨[]⟩ [65, 0, 66] (by decide)⟩

/-- C10 as stated fails: for the string of `2^31` bytes `A` the length
    `strlen(data)` becomes a negative `jsize`, `NewByteArray` is refused, and
    the `String` constructor is never handed a byte array. -/
theorem cpp_string_to_jstring_bytes_counterexample :
    cpp_string_to_jstring (List.replicate 2147483648 65) ⟨[]⟩
      = (none, ⟨[.FindClass, .GetMethodID, .NewByteArray]⟩) := by
  have hs := strlen_c_str_replicate 2147483648 65 (by decide)
  have hneg : toJsize ((strlen (c_str (List.replicate 2147483648 65)) : Nat) : Int) < 0 := by
    rw [hs]; decide
  exact cpp_string_to_jstring_refused ⟨[]⟩ _ hneg

theorem char_toNat_valid (c : Char) :
    c.toNat < 55296 ∨ (57343 < c.toNat ∧ c.toNat < 1114112) := by
  have := c.valid
  simpa [UInt32.isValidChar, Nat.isValidChar, Char.toNat] using this

/-- Decoding reads back a code point from its UTF-8 encoding and stops
    right after it. -/
theorem utf8DecodeChar?_encode (c : Char) (rest : List Nat) :
    utf8DecodeChar? (utf8EncodeChar c ++ rest) = some (c, rest) := by
  have hv := char_toNat_valid c
  unfold utf8EncodeChar
  by_cases h1 : c.toNat < 128
  · simp [h1, utf8DecodeChar?]
  · by_cases h2 : c.toNat < 2048
    · have a1 : ¬ (192 + c.toNat / 64 < 128) := by omega
      have a2 : ¬ (192 + c.toNat / 64 < 194) := by omega
      have a3 : 192 + c.toNat / 64 < 224 := by omega
      have a4 : c.toNat % 64 < 64 := by omega
      have a5 : (192 + c.toNat / 64 - 192) * 64 + (128 + c.toNat % 64 - 128) = c.toNat := by
        omega
      simp only [h1, h2, if_false, if_true, List.cons_append, List.nil_append, utf8DecodeChar?,
        a1, a2, a3, a5, Char.ofNat_toNat]
      simp [isCont]
      omega
    · by_cases h3 : c.toNat < 65536
      · have a1 : ¬ (224 + c.toNat / 4096 < 128) := by omega
        have a2 : ¬ (224 + c.toNat / 4096 < 194) := by omega
        have a3 : ¬ (224 + c.toNat / 4096 < 224) := by omega
        have a4 : 224 + c.toNat / 4096 < 240 := by omega
        have a5 : (224 + c.toNat / 4096 - 224) * 4096 + (128 + c.toNat / 64 % 64 - 128) * 64
            + (128 + c.toNat % 64 - 128) = c.toNat := by omega
        have a6 : c.toNat % 64 < 64 := by omega
        have a7 : c.toNat / 64 % 64 < 64 := by omega
        have a8 : 2048 ≤ c.toNat := by omega
        have a9 : ¬ (55296 ≤ c.toNat ∧ c.toNat < 57344) := by omega
        simp only [h1, h2, h3, if_false, if_true, List.cons_append, List.nil_append,
          utf8DecodeChar?, a1, a2, a3, a4, a5, Char.ofNat_toNat]
        simp [isCont, a8, a9]
        omega
      · have a1 : ¬ (240 + c.toNat / 262144 < 128) := by omega
        have a2 : ¬ (240 + c.toNat / 262144 < 194) := by omega
        have a3 : ¬ (240 + c.toNat / 262144 < 224) := by omega
        have a4 : ¬ (240 + c.toNat / 262144 < 240) := by omega
        have a4' : 240 + c.toNat / 262144 < 245 := by omega
        have a5 : (240 + c.toNat / 262144 - 240) * 262144
            + (128 + c.toNat / 4096 % 64 - 128) * 4096
            + (128 + c.toNat / 64 % 64 - 128) * 64
            + (128 + c.toNat % 64 - 128) = c.toNat := by omega
        have a6 : c.toNat % 64 < 64 := by omega
        have a7 : c.toNat / 64 % 64 < 64 := by omega
        have a7' : c.toNat / 4096 % 64 < 64 := by omega
        have a8 : 65536 ≤ c.toNat := by omega
        have a9 : c.toNat < 1114112 := by omega
        simp only [h1, h2, h3, if_false, if_true, List.cons_append, List.nil_append,
          utf8DecodeChar?, a1, a2, a3, a4, a4', a5, Char.ofNat_toNat]
        simp [isCont, a8, a9]
        omega

theorem utf8EncodeChar_cons (c : Char) : ∃ b bs, utf8EncodeChar c = b :: bs := by
  unfold utf8EncodeChar
  dsimp only
  split_ifs <;> exact ⟨_, _, rfl⟩

/-- Decoding inverts encoding, given a unit of fuel per byte. -/
theorem utf8DecodeAux_encode (s : List Char) (fuel : Nat)
    (h : (utf8Encode s).length ≤ fuel) : utf8DecodeAux fuel (utf8Encode s) = s := by
  induction s generalizing fuel with
  | nil => cases fuel <;> simp [utf8Encode, utf8DecodeAux]
  | cons c cs ih =>
    obtain ⟨b, bs, hb⟩ := utf8EncodeChar_cons c
    have hd := utf8DecodeChar?_encode c (utf8Encode cs)
    simp only [utf8Encode] at h ⊢
    rw [hb] at hd h
    rw [hb]
    simp only [List.cons_append, List.length_cons, List.length_append] at h hd ⊢
    cases fuel with
    | zero => omega
    | succ f =>
      simp only [utf8DecodeAux, hd]
      rw [ih f (by omega)]

theorem utf8Decode_encode (s : List Char) : utf8Decode (utf8Encode s) = s :=
  utf8DecodeAux_encode s _ (Nat.le_refl _)

/-- The encoding of a code point other than U+0000 has no zero byte. -/
theorem utf8EncodeChar_nonzero (c : Char) (hc : c.toNat ≠ 0) :
    ∀ b ∈ utf8EncodeChar c, b ≠ 0 := by
  unfold utf8EncodeChar
  by_cases h1 : c.toNat < 128
  · simp only [h1, if_true, List.mem_singleton]
    intro b hb; omega
  · by_cases h2 : c.toNat < 2048
    · simp only [h1, h2, if_true, if_false, List.mem_cons, List.mem_singleton, List.mem_nil_iff,
        or_false]
      intro b hb; omega
    · by_cases h3 : c.toNat < 65536
      · simp only [h1, h2, h3, if_true, if_false, List.mem_cons, List.mem_singleton,
          List.mem_nil_iff, or_false]
        intro b hb; omega
      · simp only [h1, h2, h3, if_false, List.mem_cons, List.mem_singleton, List.mem_nil_iff,
          or_false]
        intro b hb; omega

theorem utf8EncodeChar_nul (c : Char) (hc : c.toNat = 0) : utf8EncodeChar c = [0] := by
  simp [utf8EncodeChar, hc]

theorem takeWhile_append_all (xs ys : List Nat) (h : ∀ b ∈ xs, b ≠ 0) :
    (xs ++ ys).takeWhile nonzeroByte
      = xs ++ ys.takeWhile nonzeroByte := by
  induction xs with
  | nil => rfl
  | cons x xs ih =>
    have hx : x ≠ 0 := h x (List.mem_cons_self _ _)
    have hxs : ∀ b ∈ xs, b ≠ 0 := fun b hb => h b (List.mem_cons_of_mem _ hb)
    simp [List.takeWhile_cons, nonzeroByte_of_ne x hx, ih hxs]

/-- Cutting the UTF-8 encoding of a text at its first zero byte leaves the
    encoding of the text cut at its first U+0000. -/
theorem takeWhile_utf8Encode (s : List Char) :
    (utf8Encode s).takeWhile nonzeroByte
      = utf8Encode (s.takeWhile (fun c => decide (c.toNat ≠ 0))) := by
  induction s with
  | nil => rfl
  | cons c cs ih =>
    by_cases hc : c.toNat = 0
    · simp [utf8Encode, utf8EncodeChar_nul c hc, List.takeWhile_cons, hc, nonzeroByte_zero]
    · rw [utf8Encode, takeWhile_append_all _ _ (utf8EncodeChar_nonzero c hc), ih]
      simp [List.takeWhile_cons, hc, utf8Encode]

theorem length_takeWhile_le (xs : List Nat) :
    (xs.takeWhile nonzeroByte).length ≤ xs.length := by
  induction xs with
  | nil => simp
  | cons x xs ih =>
    cases hx : nonzeroByte x
    · simp [List.takeWhile_cons, hx]
    · simp [List.takeWhile_cons, hx]
      omega

/-- The calls `jstring_to_cpp_string` makes on a non-null string and the
    bytes it returns, when the UTF-8 encoding fits a managed array. -/
theorem jstring_to_cpp_string_run (env : JNIEnv) (s : jstring)
    (h : (utf8Encode s).length ≤ 2147483647) :
    jstring_to_cpp_string (some s) env =
      (some (utf8Encode s),
       ⟨env.calls ++ [.GetObjectClass, .GetMethodID, .NewStringUTF, .CallObjectMethod,
          .GetArrayLength, .GetByteArrayElements, .ReleaseByteArrayElements,
          .DeleteLocalRef, .DeleteLocalRef]⟩) := by
  have hlt : (utf8Encode s).length < 2147483648 := by omega
  have hsz : toSizeT ((utf8Encode s).length : Int) = (utf8Encode s).length := by
    unfold toSizeT; omega
  simp [jstring_to_cpp_string, GetObjectClass, GetMethodID, NewStringUTF, CallObjectMethod,
    GetArrayLength, getArrayElements, releaseArrayElements, DeleteLocalRef, Bind.bind,
    JNI.andThen, JNI.call, Pure.pure, JNI.ret, JNI.fail, hlt, hsz, readN_ptrOf]

/-- What the string round trip does on every text whose UTF-8 encoding has
    fewer than `2^31` bytes: the text comes back cut at its first U+0000. -/
theorem stringRoundTrip_run (env : JNIEnv) (s : jstring)
    (h : (utf8Encode s).length ≤ 2147483647) :
    (stringRoundTrip s).result env = some (s.takeWhile (fun c => decide (c.toNat ≠ 0))) := by
  have h1 := jstring_to_cpp_string_run env s h
  have h2 := cpp_string_to_jstring_run
    ⟨env.calls ++ [.GetObjectClass, .GetMethodID, .NewStringUTF, .CallObjectMethod,
          .GetArrayLength, .GetByteArrayElements, .ReleaseByteArrayElements,
          .DeleteLocalRef, .DeleteLocalRef]⟩ (utf8Encode s)
    (Nat.le_trans (length_takeWhile_le _) h)
  unfold stringRoundTrip JNI.result
  show (JNI.andThen _ _ env).1 = _
  unfold JNI.andThen
  rw [h1]
  simp only []
  rw [h2, takeWhile_utf8Encode, utf8Decode_encode]

/-- A text without U+0000 whose UTF-8 encoding has fewer than `2^31` bytes
    survives the string round trip unchanged. -/
theorem stringRoundTrip_of_no_nul (env : JNIEnv) (s : jstring)
    (h : (utf8Encode s).length ≤ 2147483647) (hnul : ∀ c ∈ s, c.toNat ≠ 0) :
    (stringRoundTrip s).result env = some s := by
  rw [stringRoundTrip_run env s h]
  congr 1
  rw [List.takeWhile_eq_self_iff]
  intro c hc
  simpa using hnul c hc

/-- C1, evaluated where it fails: the managed string `a U+0000 b` becomes the
    native bytes `61 00 62`, and `cpp_string_to_jstring` turns those into the
    managed string `a`. -/
theorem string_round_trip_nul :
    (jstring_to_cpp_string (some ['a', Char.ofNat 0, 'b'])).result ⟨[]⟩ = some [97, 0, 98]
    ∧ (cpp_string_to_jstring [97, 0, 98]).result ⟨[]⟩ = some ['a']
    ∧ (stringRoundTrip ['a', Char.ofNat 0, 'b']).result ⟨[]⟩ = some ['a'] := by
  decide

/-! ## Bitmap to matrix: the claims -/

theorem Mat.create_run (m : Mat) (fresh : Ptr Nat) (rows cols : Int) (type : Nat)
    (hr : 0 ≤ rows) (hc : 0 ≤ cols) :
    ∃ q, m.create fresh rows cols type
      = some { rows := rows, cols := cols, type := type, data := some q } := by
  unfold Mat.create
  by_cases h : m.rows = rows ∧ m.cols = cols ∧ m.type = type ∧ m.data.isSome
  · obtain ⟨h1, h2, h3, h4⟩ := h
    obtain ⟨q, hq⟩ := Option.isSome_iff_exists.mp h4
    refine ⟨q, ?_⟩
    cases m
    simp_all
  · have h2 : ¬ (rows < 0 ∨ cols < 0) := by omega
    exact ⟨fresh, by rw [if_neg h, if_neg h2]⟩

theorem Mat.create_same (fresh : Ptr Nat) (rows cols : Int) (type : Nat) (q : Ptr Nat) :
    Mat.create { rows := rows, cols := cols, type := type, data := some q } fresh rows cols type
      = some { rows := rows, cols := cols, type := type, data := some q } := by
  simp [Mat.create]

theorem channels_CV_8UC4 : CV_MAT_CN CV_8UC4 = 4 := by decide

theorem depth_CV_8UC4 : CV_MAT_DEPTH CV_8UC4 = CV_8U := by decide

theorem toInt_of_le (n : Nat) (h : n ≤ 2147483647) : toInt n = (n : Int) :=
  toJsize_of_range _ (by omega) (by omega)

/-- The run of `BitmapToMat` on an RGBA_8888 bitmap. -/
theorem BitmapToMat_rgba (fresh : Ptr Nat) (bitmap : Bitmap) (mat : Mat) (px : Ptr Nat)
    (hinfo : 0 ≤ bitmap.infoResult) (hlock : 0 ≤ bitmap.lockResult)
    (hpx : bitmap.lockedAddr = some px)
    (hfmt : bitmap.format = ANDROID_BITMAP_FORMAT_RGBA_8888) :
    ∃ q : Ptr Nat, BitmapToMat fresh bitmap mat =
      { outcome := .returned,
        dst := { rows := bitmap.height, cols := bitmap.width, type := CV_8UC4,
                 data := some (fun i =>
                   if i < bitmap.height * bitmap.width * 4 then px i else q i) },
        locks := 1, unlocks := 1 } := by
  obtain ⟨q, hq⟩ := Mat.create_run mat fresh (bitmap.height : Int) (bitmap.width : Int) CV_8UC4
    (by omega) (by omega)
  refine ⟨q, ?_⟩
  have hE : CV_ELEM_SIZE CV_8UC4 = 4 := by decide
  simp [BitmapToMat, AndroidBitmap_getInfo, AndroidBitmap_lockPixels, hinfo, hlock, hpx, hfmt,
    toInt_of_le _ bitmap.height_le, toInt_of_le _ bitmap.width_le, hq, Mat.copyTo, Mat.wrap,
    Mat.create_same, Mat.total, hE]

/-- The run of `BitmapToMat` on an RGB_565 bitmap. -/
theorem BitmapToMat_565 (fresh : Ptr Nat) (bitmap : Bitmap) (mat : Mat) (px : Ptr Nat)
    (hinfo : 0 ≤ bitmap.infoResult) (hlock : 0 ≤ bitmap.lockResult)
    (hpx : bitmap.lockedAddr = some px)
    (hfmt : bitmap.format = ANDROID_BITMAP_FORMAT_RGB_565) :
    ∃ q : Ptr Nat, BitmapToMat fresh bitmap mat =
      { outcome := .returned,
        dst := { rows := bitmap.height, cols := bitmap.width, type := CV_8UC4,
                 data := some (fun i =>
                   if i < bitmap.height * bitmap.width * 4 then bgr565ToRgbaByte px i else q i) },
        locks := 1, unlocks := 1 } := by
  obtain ⟨q, hq⟩ := Mat.create_run mat fresh (bitmap.height : Int) (bitmap.width : Int) CV_8UC4
    (by omega) (by omega)
  refine ⟨q, ?_⟩
  have hne : ¬ (ANDROID_BITMAP_FORMAT_RGB_565 = ANDROID_BITMAP_FORMAT_RGBA_8888) := by decide
  simp [BitmapToMat, AndroidBitmap_getInfo, AndroidBitmap_lockPixels, hinfo, hlock, hpx, hfmt,
    toInt_of_le _ bitmap.height_le, toInt_of_le _ bitmap.width_le, hq, cvtColor, Mat.wrap,
    Mat.create_same, hne]

/-- C5: for every bitmap whose metadata retrieval and pixel lock succeed with
    a non-null pixel pointer and whose format is RGBA_8888 or RGB_565,
    `BitmapToMat` returns and the destination matrix then has `info.height`
    rows, `info.width` columns, 4 channels and 8 bit unsigned depth, for
    either format and whatever the destination matrix was before. -/
theorem BitmapToMat_shape (fresh : Ptr Nat) (bitmap : Bitmap) (mat : Mat)
    (hinfo : 0 ≤ bitmap.infoResult) (hlock : 0 ≤ bitmap.lockResult)
    (hpx : bitmap.lockedAddr.isSome = true)
    (hfmt : bitmap.format = ANDROID_BITMAP_FORMAT_RGBA_8888 ∨
            bitmap.format = ANDROID_BITMAP_FORMAT_RGB_565) :
    (BitmapToMat fresh bitmap mat).outcome = .returned
    ∧ (BitmapToMat fresh bitmap mat).dst.rows = bitmap.height
    ∧ (BitmapToMat fresh bitmap mat).dst.cols = bitmap.width
    ∧ (BitmapToMat fresh bitmap mat).dst.channels = 4
    ∧ (BitmapToMat fresh bitmap mat).dst.depth = CV_8U := by
  obtain ⟨px, hpx1⟩ := Option.isSome_iff_exists.mp hpx
  rcases hfmt with hf | hf
  · obtain ⟨q, hq⟩ := BitmapToMat_rgba fresh bitmap mat px hinfo hlock hpx1 hf
    rw [hq]
    exact ⟨rfl, rfl, rfl, channels_CV_8UC4, depth_CV_8UC4⟩
  · obtain ⟨q, hq⟩ := BitmapToMat_565 fresh bitmap mat px hinfo hlock hpx1 hf
    rw [hq]
    exact ⟨rfl, rfl, rfl, channels_CV_8UC4, depth_CV_8UC4⟩

/-- Witness of `BitmapToMat_shape`: a 2 by 2 RGBA_8888 bitmap and a
    destination without storage. -/
theorem BitmapToMat_shape_witness :
    (0 ≤ (sampleBitmap 1 (some (fun i => i + 10))).infoResult
     ∧ 0 ≤ (sampleBitmap 1 (some (fun i => i + 10))).lockResult
     ∧ (sampleBitmap 1 (some (fun i => i + 10))).lockedAddr.isSome = true
     ∧ ((sampleBitmap 1 (some (fun i => i + 10))).format = ANDROID_BITMAP_FORMAT_RGBA_8888 ∨
        (sampleBitmap 1 (some (fun i => i + 10))).format = ANDROID_BITMAP_FORMAT_RGB_565))
    ∧ ((BitmapToMat (fun _ => 0) (sampleBitmap 1 (some (fun i => i + 10))) emptyMat).outcome
          = .returned
      ∧ (BitmapToMat (fun _ => 0) (sampleBitmap 1 (some (fun i => i + 10))) emptyMat).dst.rows
          = (sampleBitmap 1 (some (fun i => i + 10))).height
      ∧ (BitmapToMat (fun _ => 0) (sampleBitmap 1 (some (fun i => i + 10))) emptyMat).dst.cols
          = (sampleBitmap 1 (some (fun i => i + 10))).width
      ∧ (BitmapToMat (fun _ => 0) (sampleBitmap 1 (some (fun i => i + 10))) emptyMat).dst.channels
          = 4
      ∧ (BitmapToMat (fun _ => 0) (sampleBitmap 1 (some (fun i => i + 10))) emptyMat).dst.depth
          = CV_8U) :=
  ⟨⟨by decide, by decide, rfl, Or.inl rfl⟩,
   BitmapToMat_shape (fun _ => 0) (sampleBitmap 1 (some (fun i => i + 10))) emptyMat
     (by decide) (by decide) rfl (Or.inl rfl)⟩

/-- C6: for every RGBA_8888 bitmap of width `w` and height `h` whose pixel
    buffer is locked at a non-null address, `BitmapToMat` returns and the
    byte of the destination matrix at offset `i` is the byte of the pixel
    buffer at offset `i`, for every `i < 4*w*h`. -/
theorem BitmapToMat_rgba_bytes (fresh : Ptr Nat) (bitmap : Bitmap) (mat : Mat) (px : Ptr Nat)
    (hinfo : 0 ≤ bitmap.infoResult) (hlock : 0 ≤ bitmap.lockResult)
    (hpx : bitmap.lockedAddr = some px)
    (hfmt : bitmap.format = ANDROID_BITMAP_FORMAT_RGBA_8888) :
    (BitmapToMat fresh bitmap mat).outcome = .returned
    ∧ ∃ d, (BitmapToMat fresh bitmap mat).dst.data = some d
        ∧ ∀ i, i < 4 * bitmap.width * bitmap.height → d i = px i := by
  obtain ⟨q, hq⟩ := BitmapToMat_rgba fresh bitmap mat px hinfo hlock hpx hfmt
  rw [hq]
  refine ⟨rfl, _, rfl, ?_⟩
  intro i hi
  have hi2 : i < bitmap.height * bitmap.width * 4 := by
    have : bitmap.height * bitmap.width * 4 = 4 * bitmap.width * bitmap.height := by ring
    omega
  simp [hi2]

/-- Witness of `BitmapToMat_rgba_bytes`: the 2 by 2 bitmap of the
    specification, with the 16 byte buffer `10, 11, ..., 25`. -/
theorem BitmapToMat_rgba_bytes_witness :
    (0 ≤ (sampleBitmap 1 (some (fun i => i + 10))).infoResult
     ∧ 0 ≤ (sampleBitmap 1 (some (fun i => i + 10))).lockResult
     ∧ (sampleBitmap 1 (some (fun i => i + 10))).lockedAddr = some (fun i => i + 10)
     ∧ (sampleBitmap 1 (some (fun i => i + 10))).format = ANDROID_BITMAP_FORMAT_RGBA_8888)
    ∧ ((BitmapToMat (fun _ => 0) (sampleBitmap 1 (some (fun i => i + 10))) emptyMat).outcome
          = .returned
      ∧ ∃ d, (BitmapToMat (fun _ => 0) (sampleBitmap 1 (some (fun i => i + 10))) emptyMat).dst.data
            = some d
          ∧ ∀ i, i < 4 * (sampleBitmap 1 (some (fun i => i + 10))).width
                    * (sampleBitmap 1 (some (fun i => i + 10))).height →
              d i = (fun i => i + 10) i) :=
  ⟨⟨by decide, by decide, rfl, rfl⟩,
   BitmapToMat_rgba_bytes (fun _ => 0) (sampleBitmap 1 (some (fun i => i + 10))) emptyMat
     (fun i => i + 10) (by decide) (by decide) rfl rfl⟩

/-- C7: for every RGB_565 bitmap of width `w` and height `h` whose pixel
    buffer is locked at a non-null address, `BitmapToMat` returns, the
    destination matrix has `h` rows, `w` columns, 4 channels of 8 bits, and
    the fourth byte of every pixel is 255, whatever the packed buffer holds. -/
theorem BitmapToMat_565_alpha (fresh : Ptr Nat) (bitmap : Bitmap) (mat : Mat) (px : Ptr Nat)
    (hinfo : 0 ≤ bitmap.infoResult) (hlock : 0 ≤ bitmap.lockResult)
    (hpx : bitmap.lockedAddr = some px)
    (hfmt : bitmap.format = ANDROID_BITMAP_FORMAT_RGB_565) :
    (BitmapToMat fresh bitmap mat).outcome = .returned
    ∧ (BitmapToMat fresh bitmap mat).dst.rows = bitmap.height
    ∧ (BitmapToMat fresh bitmap mat).dst.cols = bitmap.width
    ∧ (BitmapToMat fresh bitmap mat).dst.channels = 4
    ∧ (BitmapToMat fresh bitmap mat).dst.depth = CV_8U
    ∧ ∃ d, (BitmapToMat fresh bitmap mat).dst.data = some d
        ∧ ∀ p, p < bitmap.width * bitmap.height → d (4 * p + 3) = 255 := by
  obtain ⟨q, hq⟩ := BitmapToMat_565 fresh bitmap mat px hinfo hlock hpx hfmt
  rw [hq]
  refine ⟨rfl, rfl, rfl, channels_CV_8UC4, depth_CV_8UC4, _, rfl, ?_⟩
  intro p hp
  have hp1 : p + 1 ≤ bitmap.width * bitmap.height := hp
  have hp2 : 4 * p + 3 < bitmap.height * bitmap.width * 4 := by
    have : bitmap.height * bitmap.width * 4 = 4 * (bitmap.width * bitmap.height) := by ring
    omega
  have hm : (4 * p + 3) % 4 = 3 := by omega
  simp [hp2, bgr565ToRgbaByte, hm]

/-- Witness of `BitmapToMat_565_alpha`: a 2 by 2 RGB_565 bitmap with the
    8 byte buffer `10, 11, ..., 17`. -/
theorem BitmapToMat_565_alpha_witness :
    (0 ≤ (sampleBitmap 4 (some (fun i => i + 10))).infoResult
     ∧ 0 ≤ (sampleBitmap 4 (some (fun i => i + 10))).lockResult
     ∧ (sampleBitmap 4 (some (fun i => i + 10))).lockedAddr = some (fun i => i + 10)
     ∧ (sampleBitmap 4 (some (fun i => i + 10))).format = ANDROID_BITMAP_FORMAT_RGB_565)
    ∧ ((BitmapToMat (fun _ => 0) (sampleBitmap 4 (some (fun i => i + 10))) emptyMat).outcome
          = .returned
      ∧ (BitmapToMat (fun _ => 0) (sampleBitmap 4 (some (fun i => i + 10))) emptyMat).dst.rows
          = (sampleBitmap 4 (some (fun i => i + 10))).height
      ∧ (BitmapToMat (fun _ => 0) (sampleBitmap 4 (some (fun i => i + 10))) emptyMat).dst.cols
          = (sampleBitmap 4 (some (fun i => i + 10))).width
      ∧ (BitmapToMat (fun _ => 0) (sampleBitmap 4 (some (fun i => i + 10))) emptyMat).dst.channels
          = 4
      ∧ (BitmapToMat (fun _ => 0) (sampleBitmap 4 (some (fun i => i + 10))) emptyMat).dst.depth
          = CV_8U
      ∧ ∃ d, (BitmapToMat (fun _ => 0) (sampleBitmap 4 (some (fun i => i + 10))) emptyMat).dst.data
            = some d
          ∧ ∀ p, p < (sampleBitmap 4 (some (fun i => i + 10))).width
                    * (sampleBitmap 4 (some (fun i => i + 10))).height →
              d (4 * p + 3) = 255) :=
  ⟨⟨by decide, by decide, rfl, rfl⟩,
   BitmapToMat_565_alpha (fun _ => 0) (sampleBitmap 4 (some (fun i => i + 10))) emptyMat
     (fun i => i + 10) (by decide) (by decide) rfl rfl⟩

/-- C8: for every bitmap whose metadata retrieval succeeds and whose pixel
    format is neither RGBA_8888 nor RGB_565, `BitmapToMat` leaves through the
    failed assertion of line 115 and does not return; the pixel buffer has
    not been locked and the destination matrix is the one passed in. -/
theorem BitmapToMat_unsupported_format (fresh : Ptr Nat) (bitmap : Bitmap) (mat : Mat)
    (hinfo : 0 ≤ bitmap.infoResult)
    (h8888 : bitmap.format ≠ ANDROID_BITMAP_FORMAT_RGBA_8888)
    (h565 : bitmap.format ≠ ANDROID_BITMAP_FORMAT_RGB_565) :
    (BitmapToMat fresh bitmap mat).outcome = .threw 115
    ∧ (BitmapToMat fresh bitmap mat).outcome ≠ .returned
    ∧ (BitmapToMat fresh bitmap mat).locks = 0
    ∧ (BitmapToMat fresh bitmap mat).dst = mat := by
  have hrun : BitmapToMat fresh bitmap mat = ⟨.threw 115, mat, 0, 0⟩ := by
    simp [BitmapToMat, AndroidBitmap_getInfo, hinfo, h8888, h565]
  rw [hrun]
  refine ⟨rfl, ?_, rfl, rfl⟩
  intro h
  exact Outcome.noConfusion h

/-- Witness of `BitmapToMat_unsupported_format`: a bitmap of format 7
    (RGBA_4444). -/
theorem BitmapToMat_unsupported_format_witness :
    (0 ≤ (sampleBitmap 7 (some (fun i => i + 10))).infoResult
     ∧ (sampleBitmap 7 (some (fun i => i + 10))).format ≠ ANDROID_BITMAP_FORMAT_RGBA_8888
     ∧ (sampleBitmap 7 (some (fun i => i + 10))).format ≠ ANDROID_BITMAP_FORMAT_RGB_565)
    ∧ ((BitmapToMat (fun _ => 0) (sampleBitmap 7 (some (fun i => i + 10))) emptyMat).outcome
          = .threw 115
      ∧ (BitmapToMat (fun _ => 0) (sampleBitmap 7 (some (fun i => i + 10))) emptyMat).outcome
          ≠ .returned
      ∧ (BitmapToMat (fun _ => 0) (sampleBitmap 7 (some (fun i => i + 10))) emptyMat).locks = 0
      ∧ (BitmapToMat (fun _ => 0) (sampleBitmap 7 (some (fun i => i + 10))) emptyMat).dst
          = emptyMat) :=
  ⟨⟨by decide, by decide, by decide⟩,
   BitmapToMat_unsupported_format (fun _ => 0) (sampleBitmap 7 (some (fun i => i + 10))) emptyMat
     (by decide) (by decide) (by decide)⟩

theorem Mat.createWith_some (m : Mat) (fresh : Ptr Nat) (rows cols : Int) (type : Nat) :
    m.createWith (fun _ => some fresh) rows cols type = m.create fresh rows cols type := rfl

theorem Mat.copyToWith_some (src : Mat) (fresh : Ptr Nat) (dst : Mat) :
    src.copyToWith (fun _ => some fresh) dst = src.copyTo fresh dst := rfl

theorem cvtColorWith_some (src : Mat) (fresh : Ptr Nat) (dst : Mat) (code : Nat) :
    cvtColorWith src (fun _ => some fresh) dst code = cvtColor src fresh dst code := rfl

/-- With an allocator that always delivers, the routine over an allocator is
    the routine `BitmapToMat`. -/
theorem BitmapToMatWith_some (fresh : Ptr Nat) (bitmap : Bitmap) (mat : Mat) :
    BitmapToMatWith (fun _ => some fresh) bitmap mat = BitmapToMat fresh bitmap mat := rfl

/-- The returning path is taken: when metadata retrieval and lock succeed
    with a non-null address, the format is one of the two supported and the
    allocator delivers, the routine returns with one lock and one unlock. -/
theorem BitmapToMatWith_returns (fresh : Ptr Nat) (bitmap : Bitmap) (mat : Mat) (px : Ptr Nat)
    (hinfo : 0 ≤ bitmap.infoResult) (hlock : 0 ≤ bitmap.lockResult)
    (hpx : bitmap.lockedAddr = some px)
    (hfmt : bitmap.format = ANDROID_BITMAP_FORMAT_RGBA_8888 ∨
            bitmap.format = ANDROID_BITMAP_FORMAT_RGB_565) :
    (BitmapToMatWith (fun _ => some fresh) bitmap mat).outcome = .returned
    ∧ (BitmapToMatWith (fun _ => some fresh) bitmap mat).locks = 1
    ∧ (BitmapToMatWith (fun _ => some fresh) bitmap mat).unlocks = 1 := by
  rw [BitmapToMatWith_some]
  rcases hfmt with hf | hf
  · obtain ⟨q, hq⟩ := BitmapToMat_rgba fresh bitmap mat px hinfo hlock hpx hf
    rw [hq]
    exact ⟨rfl, rfl, rfl⟩
  · obtain ⟨q, hq⟩ := BitmapToMat_565 fresh bitmap mat px hinfo hlock hpx hf
    rw [hq]
    exact ⟨rfl, rfl, rfl⟩

/-- C9 (as amended): in `BitmapToMat` a successful lock of the pixel buffer
    is released exactly once on the path that returns, and on no other: every
    run either returns, with the bitmap locked once and unlocked once, or
    leaves by an exception (a failed assertion, a failing create, copy or
    convert step), with at most one lock taken and no unlock made. -/
theorem BitmapToMatWith_unlocks (alloc : Nat → Option (Ptr Nat)) (bitmap : Bitmap)
    (mat : Mat) :
    ((BitmapToMatWith alloc bitmap mat).outcome = .returned
      ∧ (BitmapToMatWith alloc bitmap mat).locks = 1
      ∧ (BitmapToMatWith alloc bitmap mat).unlocks = 1)
    ∨ ((BitmapToMatWith alloc bitmap mat).outcome ≠ .returned
      ∧ (BitmapToMatWith alloc bitmap mat).locks ≤ 1
      ∧ (BitmapToMatWith alloc bitmap mat).unlocks = 0) := by
  unfold BitmapToMatWith AndroidBitmap_getInfo AndroidBitmap_lockPixels
  dsimp only
  split_ifs <;> dsimp only <;> (repeat' split) <;> simp

/-- C9 as stated fails: on a 2 by 2 RGBA_8888 bitmap whose lock succeeds
    with a pixel buffer, when the storage of the destination matrix cannot be
    allocated, `BitmapToMat` leaves by the exception of `create` (line 120)
    with the bitmap locked once and never unlocked. -/
theorem BitmapToMatWith_lock_leaked :
    0 ≤ (sampleBitmap 1 (some (fun i => i + 10))).lockResult
    ∧ (sampleBitmap 1 (some (fun i => i + 10))).lockedAddr.isSome = true
    ∧ (BitmapToMatWith (fun _ => none) (sampleBitmap 1 (some (fun i => i + 10))) emptyMat).outcome
        = .threw 120
    ∧ (BitmapToMatWith (fun _ => none) (sampleBitmap 1 (some (fun i => i + 10))) emptyMat).locks = 1
    ∧ (BitmapToMatWith (fun _ => none) (sampleBitmap 1 (some (fun i => i + 10))) emptyMat).unlocks
        = 0 := by
  decide

end Native
